import Mathlib

/-!
Verification development for the AlphaSuite scanner pipeline
(`scanners/scanner_sdk.py`, `scanners/generic_screener.py` and the
concrete scanner modules).  The Python code is shallowly embedded over
exact rationals: pandas Series of floats become `List ℚ`, NaN entries of
talib indicator output become `none : Option ℚ` (every comparison
against NaN is false in numpy, which is mirrored by the `Option`
comparison helpers below), Python dicts become association lists, and a
raised exception becomes `none` in an `Option` result.
-/

set_option maxRecDepth 100000

/-- A value stored in a company snapshot dict (numbers or strings). -/
inductive Val where
  | num : ℚ → Val
  | str : String → Val
deriving DecidableEq, Repr

instance : BEq Val := ⟨fun a b => decide (a = b)⟩

/-- A company snapshot: the flat mapping of fundamental and descriptive
attributes (`object_as_dict` of a `Company` row), modelled as an
association list in insertion order, as a Python dict is. -/
abbrev Snapshot := List (String × Val)

/-- Python `company_info[key]` lookup (first matching key). -/
def lookupKey (s : Snapshot) (k : String) : Option Val :=
  match s with
  | [] => none
  | (k0, v0) :: t => if k0 = k then some v0 else lookupKey t k

/-- Python `del company_info[key]` (guarded by `if key in company_info`):
removes the entry for `k`.  Dict keys are unique, so removing every
matching entry agrees with removing the single one. -/
def eraseKey (s : Snapshot) (k : String) : Snapshot :=
  s.filter (fun p => ¬ p.1 = k)

/-- Python `company_info[key] = v`: replaces the value in place if the
key is present (keeping its position), otherwise appends the new entry,
as dict assignment does. -/
def setKey (s : Snapshot) (k : String) (v : Val) : Snapshot :=
  match s with
  | [] => [(k, v)]
  | (k0, v0) :: t => if k0 = k then (k, v) :: t else (k0, v0) :: setKey t k v

theorem lookupKey_setKey (s : Snapshot) (k : String) (v : Val) :
    lookupKey (setKey s k v) k = some v := by
  induction s with
  | nil => simp [setKey, lookupKey]
  | cons h t ih =>
      by_cases hk : h.1 = k
      · simp [setKey, hk, lookupKey]
      · simp [setKey, hk, lookupKey, ih]

theorem lookupKey_eraseKey (s : Snapshot) (k : String) :
    lookupKey (eraseKey s k) k = none := by
  induction s with
  | nil => rfl
  | cons h t ih =>
      by_cases hk : h.1 = k
      · simpa [eraseKey, hk] using ih
      · simpa [eraseKey, hk, lookupKey] using ih

/-- One daily price bar, the row shape fetched by
`BaseScanner._get_price_history` (`open` is a Lean keyword, hence
`open_`).  Dates are modelled as day ordinals; `strftime` of distinct
daily dates yields distinct strings, so date equality is ordinal
equality. -/
structure Bar where
  date : ℕ
  open_ : ℚ
  high : ℚ
  low : ℚ
  close : ℚ
  adjclose : ℚ
  volume : ℚ
  split_coefficient : ℚ
deriving DecidableEq, Repr

/-! ### Split adjustment (`BaseScanner._get_price_history`, lines 190-199)

`df["cum_split"] = df.groupby("company_id")["split_coefficient"]
    .transform(lambda x: x.iloc[::-1].cumprod().iloc[::-1])`
is, per company, the suffix product of the (zero-replaced) split
coefficients; each of open, high, low, close is then divided by it. -/

/-- Reversed cumulative product: entry `j` is the product of the
coefficients from position `j` to the end of the list. -/
def suffixProd : List ℚ → List ℚ
  | [] => []
  | c :: t =>
      let rest := suffixProd t
      c * rest.headD 1 :: rest

/-- Embeds `df["split_coefficient"].replace(0, 1)` applied to one coefficient. -/
def replaceZero (c : ℚ) : ℚ := if c = 0 then 1 else c

/-- Embeds `df["split_coefficient"] = df["split_coefficient"].replace(0, 1)`
applied to one bar (the column is overwritten in the frame). -/
def replaceZeroBar (b : Bar) : Bar :=
  if b.split_coefficient = 0 then { b with split_coefficient := 1 } else b

/-- The split-adjustment step of `_get_price_history` for a single company
bar list (already sorted by date): overwrite zero coefficients with 1,
take the backward cumulative product, and divide the OHLC columns by it.
The internal `cum_split` helper column is not part of the result. -/
def adjustBars (bars : List Bar) : List Bar :=
  let replaced := bars.map replaceZeroBar
  let cum := suffixProd (replaced.map (fun b => b.split_coefficient))
  List.zipWith
    (fun b c =>
      { b with
        open_ := b.open_ / c
        high := b.high / c
        low := b.low / c
        close := b.close / c })
    replaced cum

theorem suffixProd_ones (l : List ℚ) (h : ∀ c ∈ l, c = 1) :
    suffixProd l = List.replicate l.length 1 := by
  induction l with
  | nil => rfl
  | cons c t ih =>
      have hc : c = 1 := h c (List.mem_cons_self c t)
      have ht : ∀ x ∈ t, x = 1 := fun x hx => h x (List.mem_cons_of_mem c hx)
      have ihe := ih ht
      cases t with
      | nil => simp [suffixProd, hc]
      | cons d u =>
          have hh : suffixProd (c :: d :: u) =
              c * (suffixProd (d :: u)).headD 1 :: suffixProd (d :: u) := rfl
          rw [hh, ihe]
          simp [hc, List.replicate_succ]

theorem suffixProd_length (l : List ℚ) : (suffixProd l).length = l.length := by
  induction l with
  | nil => rfl
  | cons c t ih => simp [suffixProd, ih]

theorem zipWith_div_replicate_one (t : List Bar) :
    List.zipWith
      (fun b c =>
        { b with
          open_ := b.open_ / c
          high := b.high / c
          low := b.low / c
          close := b.close / c })
      t (List.replicate t.length 1) = t := by
  induction t with
  | nil => rfl
  | cons b t ih =>
      rw [List.length_cons, List.replicate_succ, List.zipWith_cons_cons]
      refine List.cons_eq_cons.mpr ⟨?_, ih⟩
      cases b
      simp

/-- C6.  If every split coefficient is 1, the cumulative split product is
1 on every bar, so the adjustment divides OHLC by 1 and the bars come
back unchanged. -/
theorem adjustBars_coeff_one (bars : List Bar)
    (h : ∀ b ∈ bars, b.split_coefficient = 1) :
    suffixProd ((bars.map replaceZeroBar).map (fun b => b.split_coefficient)) =
      List.replicate bars.length 1 ∧ adjustBars bars = bars := by
  have hrep : bars.map replaceZeroBar = bars := by
    conv_rhs => rw [← List.map_id bars]
    refine List.map_congr_left ?_
    intro b hb
    simp [replaceZeroBar, h b hb]
  have hones : ∀ c ∈ bars.map (fun b => b.split_coefficient), c = 1 := by
    intro c hc
    rcases List.mem_map.mp hc with ⟨b, hb, rfl⟩
    exact h b hb
  have hsp : suffixProd (bars.map (fun b => b.split_coefficient)) =
      List.replicate bars.length 1 := by
    rw [suffixProd_ones _ hones, List.length_map]
  refine ⟨by rw [hrep, hsp], ?_⟩
  simp only [adjustBars]
  rw [hrep, hsp]
  exact zipWith_div_replicate_one bars

/-- The witness instantiates C6 on a concrete two-bar history. -/
def c6Bars : List Bar :=
  [ { date := 0, open_ := 10, high := 12, low := 9, close := 11, adjclose := 11,
      volume := 1000, split_coefficient := 1 },
    { date := 1, open_ := 11, high := 13, low := 10, close := 12, adjclose := 12,
      volume := 1100, split_coefficient := 1 } ]

theorem adjustBars_coeff_one_witness :
    suffixProd ((c6Bars.map replaceZeroBar).map (fun b => b.split_coefficient)) =
      List.replicate c6Bars.length 1 ∧ adjustBars c6Bars = c6Bars :=
  adjustBars_coeff_one c6Bars (by decide)

theorem suffixProd_ne_zero (l : List ℚ) (h : ∀ c ∈ l, c ≠ 0) :
    ∀ c ∈ suffixProd l, c ≠ 0 := by
  induction l with
  | nil => intro c hc; simp [suffixProd] at hc
  | cons a t ih =>
      intro c hc
      have ha : a ≠ 0 := h a (List.mem_cons_self a t)
      have ht : ∀ x ∈ t, x ≠ 0 := fun x hx => h x (List.mem_cons_of_mem a hx)
      simp only [suffixProd, List.mem_cons] at hc
      rcases hc with hc | hc
      · subst hc
        refine mul_ne_zero ha ?_
        cases hs : suffixProd t with
        | nil => simp [hs]
        | cons d u =>
            have hd : d ∈ suffixProd t := by
              rw [hs]; exact List.mem_cons_self d u
            simpa [hs] using ih ht d hd
      · exact ih ht c hc

/-- C7.  Zero split coefficients are overwritten with 1 before the
backward cumulative product, so every cumulative split product entry is
nonzero (no division by zero can occur), and a stored zero coefficient
behaves exactly as a stored coefficient of 1: replacing the zeros by
ones in the input leaves the adjusted output unchanged. -/
theorem zero_split_coefficient_safe (bars : List Bar) :
    ((suffixProd ((bars.map replaceZeroBar).map (fun b => b.split_coefficient))).all
        (fun c => c != 0)) = true ∧
      adjustBars (bars.map replaceZeroBar) = adjustBars bars := by
  constructor
  · rw [List.all_eq_true]
    intro c hc
    have hne : c ≠ 0 := by
      refine suffixProd_ne_zero _ ?_ c hc
      intro x hx
      rw [List.map_map] at hx
      rcases List.mem_map.mp hx with ⟨b, _, rfl⟩
      by_cases hb : b.split_coefficient = 0 <;>
        simp [replaceZeroBar, hb, Function.comp]
    simpa using hne
  · simp only [adjustBars]
    have hid : (bars.map replaceZeroBar).map replaceZeroBar = bars.map replaceZeroBar := by
      rw [List.map_map]
      refine List.map_congr_left ?_
      intro b _
      by_cases hb : b.split_coefficient = 0 <;>
        simp [replaceZeroBar, hb, Function.comp]
    rw [hid]

/-! ### Series access and indicator values

pandas `iloc[-i]` access and the talib SMA value at a back offset.  A
float NaN (undefined indicator value) is `none`; numpy comparisons
against NaN are always false, which the `q*` helpers mirror. -/

/-- pandas `series.iloc[-i]` for a back offset `i ≥ 1` (the only form
the scanners use); out of range gives `none`. -/
def ilocNeg {α : Type} (l : List α) (i : ℕ) : Option α :=
  if 1 ≤ i then l.reverse[i - 1]? else none

/-- numpy `a < b` with possible NaN operands. -/
def qlt : Option ℚ → Option ℚ → Bool
  | some a, some b => decide (a < b)
  | _, _ => false

/-- numpy `a <= b` with possible NaN operands. -/
def qle : Option ℚ → Option ℚ → Bool
  | some a, some b => decide (a ≤ b)
  | _, _ => false

/-- numpy `a > b` with possible NaN operands. -/
def qgt : Option ℚ → Option ℚ → Bool
  | some a, some b => decide (b < a)
  | _, _ => false

/-- numpy `a >= b` with possible NaN operands. -/
def qge : Option ℚ → Option ℚ → Bool
  | some a, some b => decide (b ≤ a)
  | _, _ => false

/-- Embeds `talib.SMA(xs, timeperiod=p)` read at `iloc[-i]`: the mean of the
window of `p` values ending `i - 1` places from the end when that window
lies inside the series, NaN (`none`) otherwise. -/
def smaAtBack (p : ℕ) (xs : List ℚ) (i : ℕ) : Option ℚ :=
  let n := xs.length
  if 1 ≤ p ∧ 1 ≤ i ∧ i ≤ n ∧ p + i ≤ n + 1 then
    some (((xs.drop (n + 1 - p - i)).take p).sum / p)
  else none

theorem smaAtBack_isSome_bounds (p : ℕ) (xs : List ℚ) (i : ℕ) (q : ℚ)
    (h : smaAtBack p xs i = some q) : 1 ≤ i ∧ i ≤ xs.length := by
  simp only [smaAtBack] at h
  split at h
  · rename_i hcond
    exact ⟨hcond.2.1, hcond.2.2.1⟩
  · exact absurd h (by simp)

theorem ilocNeg_of_bounds {α : Type} (l : List α) (i : ℕ) (h1 : 1 ≤ i)
    (h2 : i ≤ l.length) : ∃ x, ilocNeg l i = some x := by
  unfold ilocNeg
  rw [if_pos h1]
  have hlt : i - 1 < l.reverse.length := by
    rw [List.length_reverse]; omega
  exact ⟨l.reverse[i - 1], List.getElem?_eq_getElem hlt⟩

theorem ilocNeg_inj {α : Type} (l : List α) (hnd : l.Nodup) (i j : ℕ)
    (hi : 1 ≤ i) (hj : 1 ≤ j) (x : α)
    (hx : ilocNeg l i = some x) (hy : ilocNeg l j = some x) : i = j := by
  unfold ilocNeg at hx hy
  rw [if_pos hi] at hx
  rw [if_pos hj] at hy
  have hnd' : l.reverse.Nodup := List.nodup_reverse.mpr hnd
  have hlt : i - 1 < l.reverse.length := by
    rcases List.getElem?_eq_some.mp hx with ⟨h, _⟩
    exact h
  have := List.getElem?_inj hlt hnd' (hx.trans hy.symm)
  omega

/-! ### Golden-cross and death-cross scanners
(`scanners/golden_cross.py`, `scanners/death_cross.py`)

The source guards `len(sma50) < i + 1` and the isna checks with
`continue`; in the model an out-of-range or NaN operand already makes
the crossover test false, which advances the loop identically, so the
guards are folded into the condition. -/

structure GoldenParams where
  crossover_lookback_days : ℕ := 5
  max_price_extension_pct : ℚ := 5
deriving Repr

structure DeathParams where
  crossover_lookback_days : ℕ := 5
deriving Repr

/-- Embeds `sma50.iloc[-i] > sma200.iloc[-i] and sma50.iloc[-(i+1)] <= sma200.iloc[-(i+1)]`. -/
def goldenCondAt (closes : List ℚ) (i : ℕ) : Bool :=
  qgt (smaAtBack 50 closes i) (smaAtBack 200 closes i) &&
    qle (smaAtBack 50 closes (i + 1)) (smaAtBack 200 closes (i + 1))

/-- Embeds `sma50.iloc[-i] < sma200.iloc[-i] and sma50.iloc[-(i+1)] >= sma200.iloc[-(i+1)]`. -/
def deathCondAt (closes : List ℚ) (i : ℕ) : Bool :=
  qlt (smaAtBack 50 closes i) (smaAtBack 200 closes i) &&
    qge (smaAtBack 50 closes (i + 1)) (smaAtBack 200 closes (i + 1))

/-- Embeds `current_price < current_sma50 * (1 + max_price_extension_pct / 100)`. -/
def goldenExtension (p : GoldenParams) (closes : List ℚ) : Bool :=
  match ilocNeg closes 1, smaAtBack 50 closes 1 with
  | some price, some s => decide (price < s * (1 + p.max_price_extension_pct / 100))
  | _, _ => false

/-- Embeds `current_price < current_sma50` (death cross weakness confirmation). -/
def deathWeakness (closes : List ℚ) : Bool :=
  match ilocNeg closes 1, smaAtBack 50 closes 1 with
  | some price, some s => decide (price < s)
  | _, _ => false

/-- The result dict built by `GoldenCrossScanner.scan_company` on a hit
at back offset `i`: bookkeeping keys deleted from `company_info` in
place, then sma50, sma200 and the crossover date written into it. -/
def goldenRecord (group : List Bar) (info : Snapshot) (i : ℕ) : Snapshot :=
  let closes := group.map Bar.close
  let cleaned := eraseKey (eraseKey (eraseKey info "id") "isactive") "longbusinesssummary"
  setKey
    (setKey (setKey cleaned "sma50" (Val.num ((smaAtBack 50 closes 1).getD 0)))
      "sma200" (Val.num ((smaAtBack 200 closes 1).getD 0)))
    "crossover_date" (Val.num ((ilocNeg (group.map Bar.date) i).getD 0))

/-- Same shape for `DeathCrossScanner.scan_company`. -/
def deathRecord (group : List Bar) (info : Snapshot) (i : ℕ) : Snapshot :=
  goldenRecord group info i

/-- The `for i in range(1, crossover_lookback_days + 2)` loop of
`GoldenCrossScanner.scan_company`: first qualifying offset wins, and a
cross whose price-extension check fails breaks out with no match. -/
def goldenLoop (p : GoldenParams) (group : List Bar) (info : Snapshot) :
    ℕ → ℕ → Option Snapshot
  | _, 0 => none
  | i, rem + 1 =>
      if goldenCondAt (group.map Bar.close) i then
        (if goldenExtension p (group.map Bar.close) then
          some (goldenRecord group info i)
        else none)
      else goldenLoop p group info (i + 1) rem

/-- The corresponding loop of `DeathCrossScanner.scan_company`. -/
def deathLoop (p : DeathParams) (group : List Bar) (info : Snapshot) :
    ℕ → ℕ → Option Snapshot
  | _, 0 => none
  | i, rem + 1 =>
      if deathCondAt (group.map Bar.close) i then
        (if deathWeakness (group.map Bar.close) then
          some (deathRecord group info i)
        else none)
      else deathLoop p group info (i + 1) rem

/-- Embeds `GoldenCrossScanner.scan_company`. -/
def goldenScanCompany (p : GoldenParams) (group : List Bar) (info : Snapshot) :
    Option Snapshot :=
  if group.length < 200 + p.crossover_lookback_days then none
  else goldenLoop p group info 1 (p.crossover_lookback_days + 1)

/-- Embeds `DeathCrossScanner.scan_company`. -/
def deathScanCompany (p : DeathParams) (group : List Bar) (info : Snapshot) :
    Option Snapshot :=
  if group.length < 200 + p.crossover_lookback_days then none
  else deathLoop p group info 1 (p.crossover_lookback_days + 1)

theorem goldenLoop_eq_some (p : GoldenParams) (group : List Bar) (info : Snapshot) :
    ∀ rem i r, goldenLoop p group info i rem = some r →
      ∃ j, i ≤ j ∧ goldenCondAt (group.map Bar.close) j = true ∧
        r = goldenRecord group info j := by
  intro rem
  induction rem with
  | zero => intro i r h; simp [goldenLoop] at h
  | succ n ih =>
      intro i r h
      rw [goldenLoop] at h
      by_cases hc : goldenCondAt (group.map Bar.close) i = true
      · rw [if_pos hc] at h
        by_cases he : goldenExtension p (group.map Bar.close) = true
        · rw [if_pos he] at h
          exact ⟨i, le_refl i, hc, (Option.some_injective _ h).symm⟩
        · rw [if_neg he] at h
          exact absurd h (by simp)
      · rw [if_neg hc] at h
        rcases ih (i + 1) r h with ⟨j, hij, hcj, hrj⟩
        exact ⟨j, by omega, hcj, hrj⟩

theorem deathLoop_eq_some (p : DeathParams) (group : List Bar) (info : Snapshot) :
    ∀ rem i r, deathLoop p group info i rem = some r →
      ∃ j, i ≤ j ∧ deathCondAt (group.map Bar.close) j = true ∧
        r = deathRecord group info j := by
  intro rem
  induction rem with
  | zero => intro i r h; simp [deathLoop] at h
  | succ n ih =>
      intro i r h
      rw [deathLoop] at h
      by_cases hc : deathCondAt (group.map Bar.close) i = true
      · rw [if_pos hc] at h
        by_cases he : deathWeakness (group.map Bar.close) = true
        · rw [if_pos he] at h
          exact ⟨i, le_refl i, hc, (Option.some_injective _ h).symm⟩
        · rw [if_neg he] at h
          exact absurd h (by simp)
      · rw [if_neg hc] at h
        rcases ih (i + 1) r h with ⟨j, hij, hcj, hrj⟩
        exact ⟨j, by omega, hcj, hrj⟩

theorem cross_conds_exclusive (closes : List ℚ) (j : ℕ)
    (hg : goldenCondAt closes j = true) (hd : deathCondAt closes j = true) : False := by
  unfold goldenCondAt at hg
  unfold deathCondAt at hd
  simp only [Bool.and_eq_true] at hg hd
  obtain ⟨hg1, -⟩ := hg
  obtain ⟨hd1, -⟩ := hd
  unfold qgt at hg1
  unfold qlt at hd1
  cases h50 : smaAtBack 50 closes j with
  | none => rw [h50] at hg1; simp at hg1
  | some a =>
      cases h200 : smaAtBack 200 closes j with
      | none => rw [h50, h200] at hg1; simp at hg1
      | some b =>
          rw [h50, h200] at hg1 hd1
          simp at hg1 hd1
          linarith

/-- True when the two crossover scanners both match and report the same
crossover date for the same company (same bar group). -/
def crossSameDay (pg : GoldenParams) (pdth : DeathParams) (group : List Bar)
    (i1 i2 : Snapshot) : Bool :=
  match goldenScanCompany pg group i1, deathScanCompany pdth group i2 with
  | some r1, some r2 =>
      decide (lookupKey r1 "crossover_date" = lookupKey r2 "crossover_date")
  | _, _ => false

theorem goldenCond_date_exists (group : List Bar) (j : ℕ)
    (hc : goldenCondAt (group.map Bar.close) j = true) :
    ∃ d, ilocNeg (group.map Bar.date) j = some d := by
  unfold goldenCondAt at hc
  simp only [Bool.and_eq_true] at hc
  obtain ⟨h1, -⟩ := hc
  unfold qgt at h1
  cases h50 : smaAtBack 50 (group.map Bar.close) j with
  | none => rw [h50] at h1; simp at h1
  | some a =>
      have hb := smaAtBack_isSome_bounds 50 (group.map Bar.close) j a h50
      rw [List.length_map] at hb
      have : j ≤ (group.map Bar.date).length := by rw [List.length_map]; exact hb.2
      exact ilocNeg_of_bounds (group.map Bar.date) j hb.1 this

theorem deathCond_date_exists (group : List Bar) (j : ℕ)
    (hc : deathCondAt (group.map Bar.close) j = true) :
    ∃ d, ilocNeg (group.map Bar.date) j = some d := by
  unfold deathCondAt at hc
  simp only [Bool.and_eq_true] at hc
  obtain ⟨h1, -⟩ := hc
  unfold qlt at h1
  cases h50 : smaAtBack 50 (group.map Bar.close) j with
  | none => rw [h50] at h1; simp at h1
  | some a =>
      have hb := smaAtBack_isSome_bounds 50 (group.map Bar.close) j a h50
      rw [List.length_map] at hb
      have : j ≤ (group.map Bar.date).length := by rw [List.length_map]; exact hb.2
      exact ilocNeg_of_bounds (group.map Bar.date) j hb.1 this

theorem goldenCond_offset_pos (closes : List ℚ) (j : ℕ)
    (hc : goldenCondAt closes j = true) : 1 ≤ j := by
  unfold goldenCondAt at hc
  simp only [Bool.and_eq_true] at hc
  obtain ⟨h1, -⟩ := hc
  unfold qgt at h1
  cases h50 : smaAtBack 50 closes j with
  | none => rw [h50] at h1; simp at h1
  | some a => exact (smaAtBack_isSome_bounds 50 closes j a h50).1

theorem deathCond_offset_pos (closes : List ℚ) (j : ℕ)
    (hc : deathCondAt closes j = true) : 1 ≤ j := by
  unfold deathCondAt at hc
  simp only [Bool.and_eq_true] at hc
  obtain ⟨h1, -⟩ := hc
  unfold qlt at h1
  cases h50 : smaAtBack 50 closes j with
  | none => rw [h50] at h1; simp at h1
  | some a => exact (smaAtBack_isSome_bounds 50 closes j a h50).1

/-- C8.  Crossover detectors are direction-exclusive: on a single company
bar group (with its dates pairwise distinct, the data-model invariant),
the golden-cross and death-cross scanners can never both report a cross
for the same day, whatever parameters either uses. -/
theorem golden_death_not_same_day (pg : GoldenParams) (pdth : DeathParams)
    (group : List Bar) (i1 i2 : Snapshot)
    (hnd : (group.map Bar.date).Nodup) :
    crossSameDay pg pdth group i1 i2 = false := by
  unfold crossSameDay
  cases hg : goldenScanCompany pg group i1 with
  | none => simp
  | some r1 =>
      cases hd : deathScanCompany pdth group i2 with
      | none => simp
      | some r2 =>
          simp only []
          rw [decide_eq_false_iff_not]
          intro heq
          unfold goldenScanCompany at hg
          split at hg
          · exact absurd hg (by simp)
          · unfold deathScanCompany at hd
            split at hd
            · exact absurd hd (by simp)
            · rcases goldenLoop_eq_some pg group i1 _ _ _ hg with ⟨j1, _, hc1, hr1⟩
              rcases deathLoop_eq_some pdth group i2 _ _ _ hd with ⟨j2, _, hc2, hr2⟩
              rcases goldenCond_date_exists group j1 hc1 with ⟨d1, hd1⟩
              rcases deathCond_date_exists group j2 hc2 with ⟨d2, hd2⟩
              have hl1 : lookupKey r1 "crossover_date" = some (Val.num d1) := by
                rw [hr1]
                simp only [goldenRecord]
                rw [lookupKey_setKey, hd1]
                simp
              have hl2 : lookupKey r2 "crossover_date" = some (Val.num d2) := by
                rw [hr2]
                simp only [deathRecord, goldenRecord]
                rw [lookupKey_setKey, hd2]
                simp
              rw [hl1, hl2] at heq
              have hdd : d1 = d2 := by
                have hv := Option.some_injective _ heq
                have hq : (d1 : ℚ) = d2 := by injection hv
                exact_mod_cast hq
              subst hdd
              have hj : j1 = j2 :=
                ilocNeg_inj (group.map Bar.date) hnd j1 j2
                  (goldenCond_offset_pos _ j1 hc1) (deathCond_offset_pos _ j2 hc2)
                  d1 hd1 hd2
              subst hj
              exact cross_conds_exclusive (group.map Bar.close) j1 hc1 hc2

/-- Witness for C8: a concrete (empty) group with distinct dates. -/
theorem golden_death_not_same_day_witness :
    crossSameDay {} {} [] [] [] = false :=
  golden_death_not_same_day {} {} [] [] [] (by simp)

/-! ### Selling-climax and new-highs scanners
(`scanners/selling_climax.py`, `scanners/new_highs.py`) -/

/-- Embeds `group["high"].iloc[-i]` at a loop offset the guards have already
validated (the `.getD 0` default is never reached there). -/
def hiAt (group : List Bar) (i : ℕ) : ℚ := ((ilocNeg (group.map Bar.high) i).getD 0)

/-- Embeds `group["low"].iloc[-i]` under the same validity. -/
def loAt (group : List Bar) (i : ℕ) : ℚ := ((ilocNeg (group.map Bar.low) i).getD 0)

/-- Embeds `group["close"].iloc[-i]` under the same validity. -/
def clAt (group : List Bar) (i : ℕ) : ℚ := ((ilocNeg (group.map Bar.close) i).getD 0)

/-- Embeds `group["date"].iloc[-i]` under the same validity. -/
def dateAt (group : List Bar) (i : ℕ) : ℕ := ((ilocNeg (group.map Bar.date) i).getD 0)

structure ClimaxParams where
  new_low_period : ℕ := 20
  volume_spike_multiplier : ℚ := 5 / 2
  close_reversal_pct : ℚ := 50
  setup_lookback_days : ℕ := 2
deriving Repr

/-- Embeds `group["low"].iloc[-i] < group["low"].iloc[-(P + i) : -i].min()`;
the min of an empty slice is NaN, making the comparison false. -/
def newLowAt (P : ℕ) (group : List Bar) (i : ℕ) : Bool :=
  qlt (ilocNeg (group.map Bar.low) i)
    (((group.drop (group.length - (P + i))).take P).map Bar.low).min?

/-- Embeds `group["volume"].iloc[-i] > avg_volume_20.iloc[-i] * multiplier`. -/
def highVolumeAt (mult : ℚ) (group : List Bar) (i : ℕ) : Bool :=
  match ilocNeg (group.map Bar.volume) i, smaAtBack 20 (group.map Bar.volume) i with
  | some v, some a => decide (a * mult < v)
  | _, _ => false

/-- The result dict of `SellingClimaxScanner.scan_company` on a hit. -/
def climaxRecord (group : List Bar) (info : Snapshot) (i : ℕ) (posPct : ℚ) : Snapshot :=
  let cleaned := eraseKey (eraseKey (eraseKey info "id") "isactive") "longbusinesssummary"
  setKey (setKey cleaned "close_pos_in_range" (Val.num posPct))
    "climax_date" (Val.num (dateAt group i))

/-- The `for i in range(1, setup_lookback_days + 1)` loop of
`SellingClimaxScanner.scan_company`; the NaN / short-history guard and
the zero-range bar both `continue`. -/
def climaxLoop (p : ClimaxParams) (group : List Bar) (info : Snapshot) :
    ℕ → ℕ → Option Snapshot
  | _, 0 => none
  | i, rem + 1 =>
      if group.length < p.new_low_period + i ∨
          smaAtBack 20 (group.map Bar.volume) i = none then
        climaxLoop p group info (i + 1) rem
      else
        let range := hiAt group i - loAt group i
        if range = 0 then climaxLoop p group info (i + 1) rem
        else
          let posPct := (clAt group i - loAt group i) / range * 100
          if newLowAt p.new_low_period group i &&
              highVolumeAt p.volume_spike_multiplier group i &&
              decide (p.close_reversal_pct < posPct) then
            some (climaxRecord group info i posPct)
          else climaxLoop p group info (i + 1) rem

/-- Embeds `SellingClimaxScanner.scan_company`. -/
def sellingClimaxScanCompany (p : ClimaxParams) (group : List Bar)
    (info : Snapshot) : Option Snapshot :=
  if group.length < p.new_low_period + 1 + p.setup_lookback_days then none
  else climaxLoop p group info 1 p.setup_lookback_days

structure NewHighsParams where
  setup_lookback_days : ℕ := 2
deriving Repr

/-- The result dict of `NewHighsScanner.scan_company` on a hit. -/
def newHighsRecord (group : List Bar) (info : Snapshot) (i : ℕ) : Snapshot :=
  let cleaned := eraseKey (eraseKey (eraseKey info "id") "isactive") "longbusinesssummary"
  setKey
    (setKey
      (setKey (setKey cleaned "currentprice" (Val.num (clAt group i)))
        "fiftytwoweekhigh" (Val.num (hiAt group i)))
      "pct_of_high"
      (Val.num (if 0 < hiAt group i then clAt group i / hiAt group i * 100 else 0)))
    "setup_date" (Val.num (dateAt group i))

/-- The `for i in range(1, setup_lookback_days + 1)` loop of
`NewHighsScanner.scan_company`: the 52-week window prior to the checked
day is `group.iloc[-(252 + i) : -i]`, and the day matches when its high
reaches the max of that window.  An empty window does a continue, which coincides
with `max?` being `none`. -/
def newHighsLoop (group : List Bar) (info : Snapshot) :
    ℕ → ℕ → Option Snapshot
  | _, 0 => none
  | i, rem + 1 =>
      if group.length < 252 + i then newHighsLoop group info (i + 1) rem
      else
        match (((group.drop (group.length - (252 + i))).take 252).map Bar.high).max? with
        | none => newHighsLoop group info (i + 1) rem
        | some m =>
            if decide (m ≤ hiAt group i) then some (newHighsRecord group info i)
            else newHighsLoop group info (i + 1) rem

/-- Embeds `NewHighsScanner.scan_company`. -/
def newHighsScanCompany (p : NewHighsParams) (group : List Bar)
    (info : Snapshot) : Option Snapshot :=
  if group.length < 252 + p.setup_lookback_days then none
  else newHighsLoop group info 1 p.setup_lookback_days

/-- The synthetic series of spec Scenario 2, sized 252 bars plus the
2-bar lookback tolerance: closes rise linearly (500, 505, ..., 1760 on
bar 252), then bar 253 drops 20 percent to 1408 on volume 5000 = 5x the
prior 20-bar average volume of 1000, closing at 8/300 = 2.67 percent of
its 300-point range, inside the bottom 10 percent. -/
def scenario2Bars : List Bar :=
  (List.range 254).map fun j =>
    if j ≤ 252 then
      { date := j, open_ := 500 + 5 * (j : ℚ), high := 505 + 5 * (j : ℚ),
        low := 495 + 5 * (j : ℚ), close := 500 + 5 * (j : ℚ),
        adjclose := 500 + 5 * (j : ℚ), volume := 1000, split_coefficient := 1 }
    else
      { date := j, open_ := 1500, high := 1700, low := 1400, close := 1408,
        adjclose := 1408, volume := 5000, split_coefficient := 1 }

/-- The fundamentals snapshot used with Scenario 2. -/
def scenario2Info : Snapshot :=
  [("id", Val.num 7), ("isactive", Val.num 1), ("symbol", Val.str "XYZ"),
   ("marketcap", Val.num 2000000000)]

/-- C4 counterexample: on the Scenario 2 series (default parameters,
as the spec scenario fixes none), `SellingClimaxScanner.scan_company`
returns no match - the drop bar is a 20-day low on climactic volume,
but its close sits at 2.67 percent of the range of the bar, failing the
requirement in the scanner of a close ABOVE `close_reversal_pct` (50) of the
range; a bottom-10-percent close can therefore never match. -/
theorem scenario2_sellingClimax_no_match :
    sellingClimaxScanCompany {} scenario2Bars scenario2Info = none := by
  decide!

/-- C4 amended: on the Scenario 2 series the selling-climax detector
returns none (the bottom-of-range close fails the reversal-close
requirement), and the new-high detector DOES return a match, because
the pre-drop peak bar (bar 252) is still a new 252-bar high at back
offset 2, inside the 2-day lookback tolerance. -/
theorem scenario2_behavior :
    sellingClimaxScanCompany {} scenario2Bars scenario2Info = none ∧
      (newHighsScanCompany {} scenario2Bars scenario2Info).isSome = true := by
  constructor
  · decide!
  · decide!

/-! ### Liquidity filter and per-company loop
(`BaseScanner.run_scan`, lines 111-133)

`price_df.groupby("company_id")` is modelled as an association list of
per-company bar lists (the frame is sorted by company and date, and ids
are unique per group). -/

abbrev GroupedPrices := List (ℕ × List Bar)

/-- Embeds `rolling(window=volume_lookback, min_periods=1).mean()` read at a
company last row: the mean of the last `min w n` volumes.  pandas
rejects a window below 1 and a company with no rows has no group, so
`w = 0` and `[]` do not arise in the pipeline. -/
def latestAvgVolume (w : ℕ) (vols : List ℚ) : ℚ :=
  let k := min w vols.length
  (vols.drop (vols.length - k)).sum / k

/-- Lines 116-123: keep exactly the companies whose latest rolling
average volume is at or above `min_avg_volume`; every other company and its
bars are removed from `price_df` before the per-company loop. -/
def passingVolumeCompanies (w : ℕ) (floor : ℚ) (prices : GroupedPrices) :
    GroupedPrices :=
  prices.filter (fun pr => floor ≤ latestAvgVolume w (pr.2.map Bar.volume))

/-- Embeds `candidate_map.get(company_id)`. -/
def lookupInfo (cmap : List (ℕ × Snapshot)) (cid : ℕ) : Option Snapshot :=
  match cmap with
  | [] => none
  | (k, v) :: t => if k = cid then some v else lookupInfo t cid

/-- Lines 125-133, the per-company loop run after the liquidity filter:
group by company over the filtered frame, reindex (identity on a bar
list), look the snapshot up (`if company_info:` skips a missing or empty
dict), and call `scan_company`.  The returned pairs list one invocation
per entry, so its ids are exactly the companies `scan_company` is
invoked on. -/
def scanInvocations (scan : List Bar → Snapshot → Option Snapshot)
    (w : ℕ) (floor : ℚ) (prices : GroupedPrices)
    (cmap : List (ℕ × Snapshot)) : List (ℕ × Option Snapshot) :=
  (passingVolumeCompanies w floor prices).filterMap
    (fun pr =>
      match lookupInfo cmap pr.1 with
      | some info => if info.isEmpty then none else some (pr.1, scan pr.2 info)
      | none => none)

theorem key_nodup_mem_eq {α β : Type} (l : List (α × β))
    (hnd : (l.map Prod.fst).Nodup) (k : α) (a b : β)
    (ha : (k, a) ∈ l) (hb : (k, b) ∈ l) : a = b := by
  induction l with
  | nil => cases ha
  | cons p t ih =>
      rw [List.map_cons, List.nodup_cons] at hnd
      rcases List.mem_cons.mp ha with ha1 | ha1 <;>
        rcases List.mem_cons.mp hb with hb1 | hb1
      · rw [← ha1] at hb1
        exact congrArg Prod.snd hb1.symm
      · exfalso
        apply hnd.1
        rw [← ha1]
        exact List.mem_map.mpr ⟨(k, b), hb1, rfl⟩
      · exfalso
        apply hnd.1
        rw [← hb1]
        exact List.mem_map.mpr ⟨(k, a), ha1, rfl⟩
      · exact ih hnd.2 ha1 hb1

/-- C1.  In `run_scan`, a company in the bulk-loaded price set whose
latest rolling average volume is below the floor is dropped before the
per-company loop, so `scan_company` is never invoked for it; a company
whose latest rolling average reaches the floor is retained, and (its
snapshot being present, as it is for every bulk-loaded candidate) is
scanned. -/
theorem liquidity_filter_gates_scan
    (scan : List Bar → Snapshot → Option Snapshot) (w : ℕ) (floor : ℚ)
    (prices : GroupedPrices) (cmap : List (ℕ × Snapshot))
    (cid : ℕ) (bars : List Bar)
    (hmem : (cid, bars) ∈ prices)
    (hnd : (prices.map Prod.fst).Nodup) :
    (latestAvgVolume w (bars.map Bar.volume) < floor →
      cid ∉ (scanInvocations scan w floor prices cmap).map Prod.fst) ∧
    (floor ≤ latestAvgVolume w (bars.map Bar.volume) →
      (cid, bars) ∈ passingVolumeCompanies w floor prices ∧
      ∀ info, lookupInfo cmap cid = some info → info ≠ [] →
        (cid, scan bars info) ∈ scanInvocations scan w floor prices cmap) := by
  constructor
  · intro hlt hin
    rcases List.mem_map.mp hin with ⟨pr, hpr, hfst⟩
    rcases List.mem_filterMap.mp hpr with ⟨gr, hgr, hsome⟩
    have hgr2 : gr ∈ prices ∧ (floor ≤ latestAvgVolume w (gr.2.map Bar.volume)) := by
      have := List.mem_filter.mp hgr
      exact ⟨this.1, by simpa using this.2⟩
    have hgid : gr.1 = cid := by
      rcases hlu : lookupInfo cmap gr.1 with _ | info
      · rw [hlu] at hsome; cases hsome
      · rw [hlu] at hsome
        dsimp only at hsome
        by_cases he : info.isEmpty = true
        · rw [if_pos he] at hsome; cases hsome
        · rw [if_neg he] at hsome
          have := Option.some_injective _ hsome
          rw [← this] at hfst
          exact hfst
    have hbars : gr.2 = bars := by
      have : (cid, gr.2) ∈ prices := by
        have : (gr.1, gr.2) ∈ prices := hgr2.1
        rwa [hgid] at this
      exact key_nodup_mem_eq prices hnd cid gr.2 bars this hmem
    rw [hbars] at hgr2
    exact absurd hgr2.2 (not_le.mpr hlt)
  · intro hge
    have hpass : (cid, bars) ∈ passingVolumeCompanies w floor prices := by
      refine List.mem_filter.mpr ⟨hmem, ?_⟩
      simpa using hge
    refine ⟨hpass, ?_⟩
    intro info hinfo hne
    refine List.mem_filterMap.mpr ⟨(cid, bars), hpass, ?_⟩
    have he : info.isEmpty = false := by
      cases info with
      | nil => exact absurd rfl hne
      | cons a t => rfl
    simp [hinfo, he]

/-- Witness data for C1: one illiquid company (latest average volume
10) and one liquid company (latest average volume 200000). -/
def c1LowBar : Bar :=
  { date := 0, open_ := 10, high := 11, low := 9, close := 10, adjclose := 10,
    volume := 10, split_coefficient := 1 }

def c1HighBar : Bar :=
  { date := 0, open_ := 10, high := 11, low := 9, close := 10, adjclose := 10,
    volume := 200000, split_coefficient := 1 }

def c1Prices : GroupedPrices := [(1, [c1LowBar]), (2, [c1HighBar])]

def c1Cmap : List (ℕ × Snapshot) :=
  [(1, [("symbol", Val.str "AAA")]), (2, [("symbol", Val.str "BBB")])]

def c1Scan : List Bar → Snapshot → Option Snapshot := fun _ info => some info

theorem liquidity_filter_gates_scan_witness :
    (latestAvgVolume 50 ([c1LowBar].map Bar.volume) < 100000 ∧
      1 ∉ (scanInvocations c1Scan 50 100000 c1Prices c1Cmap).map Prod.fst) ∧
    (2, c1Scan [c1HighBar] [("symbol", Val.str "BBB")]) ∈
      scanInvocations c1Scan 50 100000 c1Prices c1Cmap := by
  refine ⟨⟨by decide!, ?_⟩, ?_⟩
  · exact (liquidity_filter_gates_scan c1Scan 50 100000 c1Prices c1Cmap 1 [c1LowBar]
      (by decide) (by decide)).1 (by decide!)
  · exact ((liquidity_filter_gates_scan c1Scan 50 100000 c1Prices c1Cmap 2 [c1HighBar]
      (by decide) (by decide)).2 (by decide!)).2 [("symbol", Val.str "BBB")]
      (by decide) (by decide)

/-! ### Result-table assembly (`BaseScanner.run_scan`, lines 135-151)

The non-empty result frame is a column list plus rows aligned with it
(scanner-computed numeric fields; string-valued cells take no part in
the ordering and sorting claims, so rows are rational vectors).  pandas
`sort_values` produces some permutation of the rows that is sorted on
the key column in the requested direction; it is modelled by insertion
sort, one such permutation. -/

structure ScanTable where
  cols : List String
  rows : List (List ℚ)
deriving Repr

/-- Embeds `existing_leading_columns = [col for col in leading_columns if col in df.columns]`. -/
def existingLeading (leading cols : List String) : List String :=
  leading.filter (fun c => decide (c ∈ cols))

/-- Embeds `other_columns = [col for col in df.columns if col not in existing_leading_columns]`. -/
def otherColumns (leading cols : List String) : List String :=
  cols.filter (fun c => decide (c ∉ existingLeading leading cols))

/-- Embeds `final_column_order = existing_leading_columns + other_columns`. -/
def finalOrder (leading cols : List String) : List String :=
  existingLeading leading cols ++ otherColumns leading cols

/-- Embeds `df[final_column_order]` applied to one row: select the cells of the
new column order (indices valid by construction). -/
def reindexRow (oldCols newCols : List String) (row : List ℚ) : List ℚ :=
  newCols.map (fun c => row.getD (oldCols.indexOf c) 0)

/-- The sort-key cell of a row. -/
def rowKey (cols : List String) (sortBy : String) (row : List ℚ) : ℚ :=
  row.getD (cols.indexOf sortBy) 0

/-- Row comparison in the declared direction (`ascending` as in
`sort_info`). -/
def rowLE (asc : Bool) (cols : List String) (sortBy : String)
    (a b : List ℚ) : Prop :=
  if asc then rowKey cols sortBy a ≤ rowKey cols sortBy b
  else rowKey cols sortBy b ≤ rowKey cols sortBy a

instance rowLEDecidable (asc : Bool) (cols : List String) (sortBy : String) :
    DecidableRel (rowLE asc cols sortBy) := fun a b => by
  unfold rowLE
  split <;> infer_instance

instance rowLETotal (asc : Bool) (cols : List String) (sortBy : String) :
    IsTotal (List ℚ) (rowLE asc cols sortBy) :=
  ⟨by
    intro a b
    unfold rowLE
    split
    · exact le_total _ _
    · exact le_total _ _⟩

instance rowLETrans (asc : Bool) (cols : List String) (sortBy : String) :
    IsTrans (List ℚ) (rowLE asc cols sortBy) :=
  ⟨by
    intro a b c
    unfold rowLE
    split
    · exact le_trans
    · intro h1 h2
      exact le_trans h2 h1⟩

/-- Lines 138-149 of `run_scan` for a non-empty result frame: put the
present leading columns first in declared order, then the remaining
columns in original order, and sort by the declared key and direction
when the key is one of the columns, else leave the rows untouched. -/
def formatOutput (leading : List String) (sortBy : String) (asc : Bool)
    (t : ScanTable) : ScanTable :=
  let order := finalOrder leading t.cols
  let rows2 := t.rows.map (reindexRow t.cols order)
  if sortBy ∈ order then
    { cols := order, rows := List.insertionSort (rowLE asc order sortBy) rows2 }
  else
    { cols := order, rows := rows2 }

/-- C9.  The assembled result table has the present scanner-declared
leading columns first in declared order and the remaining columns after
them in original order; when the declared sort key is a column the rows
are a permutation of the (reindexed) input rows sorted by that key in
the declared direction; when the key is absent, sorting is skipped
silently: no error (the function is total) and the rows keep their
original order. -/
theorem format_output_spec (leading : List String) (sortBy : String)
    (asc : Bool) (t : ScanTable) :
    (formatOutput leading sortBy asc t).cols = finalOrder leading t.cols ∧
    ((formatOutput leading sortBy asc t).rows).Perm
      (t.rows.map (reindexRow t.cols (finalOrder leading t.cols))) ∧
    (sortBy ∈ finalOrder leading t.cols →
      List.Sorted (rowLE asc (finalOrder leading t.cols) sortBy)
        (formatOutput leading sortBy asc t).rows) ∧
    (sortBy ∉ finalOrder leading t.cols →
      (formatOutput leading sortBy asc t).rows =
        t.rows.map (reindexRow t.cols (finalOrder leading t.cols))) := by
  by_cases hs : sortBy ∈ finalOrder leading t.cols
  · refine ⟨by simp [formatOutput, hs], ?_, ?_, ?_⟩
    · simp only [formatOutput, hs, if_pos]
      exact List.perm_insertionSort _ _
    · intro _
      simp only [formatOutput, hs, if_pos]
      exact List.sorted_insertionSort _ _
    · intro hcon
      exact absurd hs hcon
  · refine ⟨by simp [formatOutput, hs], ?_, ?_, ?_⟩
    · simp only [formatOutput, hs, if_neg, not_false_iff]
      exact List.Perm.refl _
    · intro hcon
      exact absurd hcon hs
    · intro _
      simp [formatOutput, hs]

/-- Witness table for C9: three rows, sort key present, descending. -/
def c9Table : ScanTable :=
  { cols := ["symbol_rank", "marketcap", "extra"],
    rows := [[1, 5, 10], [2, 9, 20], [3, 7, 30]] }

theorem format_output_spec_witness :
    List.Sorted (rowLE false (finalOrder ["marketcap"] c9Table.cols) "marketcap")
      (formatOutput ["marketcap"] "marketcap" false c9Table).rows :=
  (format_output_spec ["marketcap"] "marketcap" false c9Table).2.2.1 (by decide)

/-! ### The Company row and the filter map of the generic screener
(`core/model.py` column subset, `scanners/generic_screener.py` lines
18-67)

Numeric and percentage columns carry `Option ℚ` (NULL is `none`),
category columns carry `Option String`. -/

structure Company where
  isactive : Bool := true
  exchange : String := ""
  marketcap : Option ℚ := none
  dividendyield : Option ℚ := none
  currentprice : Option ℚ := none
  industry : Option String := none
  sectorkey : Option String := none
  country : Option String := none
  recommendationkey : Option String := none
  trailingpe : Option ℚ := none
  forwardpe : Option ℚ := none
  trailingpegratio : Option ℚ := none
  pricetosalestrailing12months : Option ℚ := none
  pricetobook : Option ℚ := none
  enterprisetoebitda : Option ℚ := none
  returnonequity : Option ℚ := none
  returnonassets : Option ℚ := none
  profitmargins : Option ℚ := none
  grossmargins : Option ℚ := none
  operatingmargins : Option ℚ := none
  earningsgrowth_quarterly_yoy : Option ℚ := none
  revenuegrowth_quarterly_yoy : Option ℚ := none
  eps_cagr_3year : Option ℚ := none
  debttoequity : Option ℚ := none
  currentratio : Option ℚ := none
  payoutratio : Option ℚ := none
  beta : Option ℚ := none
  price_relative_to_52week_high : Option ℚ := none
  relative_strength_percentile_252 : Option ℚ := none
  relative_strength_percentile_126 : Option ℚ := none
  relative_strength_percentile_63 : Option ℚ := none
  _52weekchange : Option ℚ := none
  earningsquarterlygrowth : Option ℚ := none
  revenuegrowth : Option ℚ := none
deriving Repr

/-- A SQLAlchemy `model_attr`: a numeric or a category column. -/
inductive DbAttr where
  | qattr : (Company → Option ℚ) → DbAttr
  | sattr : (Company → Option String) → DbAttr

/-- Indicator parameter dict of a technical filter
(`tech_filter.get("value", {})` with the keys `.get` defaults cover). -/
structure TechParams where
  period : Option ℕ := none
  fastperiod : Option ℕ := none
  slowperiod : Option ℕ := none
  signalperiod : Option ℕ := none
  fastk_period : Option ℕ := none
  slowk_period : Option ℕ := none
  slowd_period : Option ℕ := none
  nbdevup : Option ℚ := none
  nbdevdn : Option ℚ := none
  value : Option ℚ := none
deriving Repr

/-- The `value` slot of a Filter Specification: a scalar number, a
scalar string, a list (for the `in` operator), or an indicator
parameter mapping (for technical filters). -/
inductive FilterValue where
  | num : ℚ → FilterValue
  | strv : String → FilterValue
  | listv : List String → FilterValue
  | mapping : TechParams → FilterValue

/-- One element of `self.params["filters"]`: `{name, op, value}` (the
`display` slot is UI-only). -/
structure GenFilterSpec where
  name : String := ""
  op : String := ""
  value : Option FilterValue := none

/-- An entry of `GenericScreener.FILTER_MAP`; technical entries carry
no `model_attr` key, hence `attr := none`. -/
structure FilterInfo where
  source : String
  ftype : String
  attr : Option DbAttr := none

/-- Embeds `GenericScreener.FILTER_MAP` (lines 18-67). -/
def FILTER_MAP : String → Option FilterInfo := fun name =>
  if name = "marketcap" then some ⟨"db", "numeric", some (.qattr (fun c => c.marketcap))⟩
  else if name = "dividendyield" then some ⟨"db", "percentage", some (.qattr (fun c => c.dividendyield))⟩
  else if name = "currentprice" then some ⟨"db", "numeric", some (.qattr (fun c => c.currentprice))⟩
  else if name = "industry" then some ⟨"db", "category", some (.sattr (fun c => c.industry))⟩
  else if name = "sector" then some ⟨"db", "category", some (.sattr (fun c => c.sectorkey))⟩
  else if name = "country" then some ⟨"db", "category", some (.sattr (fun c => c.country))⟩
  else if name = "recommendationkey" then some ⟨"db", "category", some (.sattr (fun c => c.recommendationkey))⟩
  else if name = "trailingpe" then some ⟨"db", "numeric", some (.qattr (fun c => c.trailingpe))⟩
  else if name = "forwardpe" then some ⟨"db", "numeric", some (.qattr (fun c => c.forwardpe))⟩
  else if name = "trailingpegratio" then some ⟨"db", "numeric", some (.qattr (fun c => c.trailingpegratio))⟩
  else if name = "pricetosalestrailing12months" then some ⟨"db", "numeric", some (.qattr (fun c => c.pricetosalestrailing12months))⟩
  else if name = "pricetobook" then some ⟨"db", "numeric", some (.qattr (fun c => c.pricetobook))⟩
  else if name = "enterprisetoebitda" then some ⟨"db", "numeric", some (.qattr (fun c => c.enterprisetoebitda))⟩
  else if name = "returnonequity" then some ⟨"db", "percentage", some (.qattr (fun c => c.returnonequity))⟩
  else if name = "returnonassets" then some ⟨"db", "percentage", some (.qattr (fun c => c.returnonassets))⟩
  else if name = "profitmargins" then some ⟨"db", "percentage", some (.qattr (fun c => c.profitmargins))⟩
  else if name = "grossmargins" then some ⟨"db", "percentage", some (.qattr (fun c => c.grossmargins))⟩
  else if name = "operatingmargins" then some ⟨"db", "percentage", some (.qattr (fun c => c.operatingmargins))⟩
  else if name = "earningsgrowth_quarterly_yoy" then some ⟨"db", "percentage", some (.qattr (fun c => c.earningsgrowth_quarterly_yoy))⟩
  else if name = "revenuegrowth_quarterly_yoy" then some ⟨"db", "percentage", some (.qattr (fun c => c.revenuegrowth_quarterly_yoy))⟩
  else if name = "eps_cagr_3year" then some ⟨"db", "percentage", some (.qattr (fun c => c.eps_cagr_3year))⟩
  else if name = "debttoequity" then some ⟨"db", "numeric", some (.qattr (fun c => c.debttoequity))⟩
  else if name = "currentratio" then some ⟨"db", "numeric", some (.qattr (fun c => c.currentratio))⟩
  else if name = "payoutratio" then some ⟨"db", "percentage", some (.qattr (fun c => c.payoutratio))⟩
  else if name = "beta" then some ⟨"db", "numeric", some (.qattr (fun c => c.beta))⟩
  else if name = "price_relative_to_52week_high" then some ⟨"db", "percentage_raw", some (.qattr (fun c => c.price_relative_to_52week_high))⟩
  else if name = "relative_strength_percentile_252" then some ⟨"db", "numeric", some (.qattr (fun c => c.relative_strength_percentile_252))⟩
  else if name = "relative_strength_percentile_126" then some ⟨"db", "numeric", some (.qattr (fun c => c.relative_strength_percentile_126))⟩
  else if name = "relative_strength_percentile_63" then some ⟨"db", "numeric", some (.qattr (fun c => c.relative_strength_percentile_63))⟩
  else if name = "_52weekchange" then some ⟨"db", "percentage", some (.qattr (fun c => c._52weekchange))⟩
  else if name = "sma" then some ⟨"tech", "numeric", none⟩
  else if name = "ema" then some ⟨"tech", "numeric", none⟩
  else if name = "rsi" then some ⟨"tech", "numeric", none⟩
  else if name = "macd" then some ⟨"tech", "crossover", none⟩
  else if name = "stoch" then some ⟨"tech", "crossover_value", none⟩
  else if name = "bbands" then some ⟨"tech", "crossover", none⟩
  else if name = "adx" then some ⟨"tech", "numeric", none⟩
  else none

/-! ### Database-side filter conditions
(`GenericScreener._get_base_query`, lines 89-146)

A SQL comparison against NULL selects nothing, so every comparison is
false on a `none` attribute.  A comparison between a column and a value
of the other kind is a query-construction type error; it is not
exercised and yields false. -/

/-- Embeds `model_attr != None`. -/
def attrNotNull (a : DbAttr) (c : Company) : Bool :=
  match a with
  | .qattr f => (f c).isSome
  | .sattr f => (f c).isSome

/-- Embeds `model_attr > filter_value`. -/
def dbGT (a : DbAttr) (v : FilterValue) (c : Company) : Bool :=
  match a, v with
  | .qattr f, .num q => match f c with | some x => decide (q < x) | none => false
  | .sattr f, .strv s => match f c with | some x => decide (s < x) | none => false
  | _, _ => false

/-- Embeds `model_attr >= filter_value`. -/
def dbGE (a : DbAttr) (v : FilterValue) (c : Company) : Bool :=
  match a, v with
  | .qattr f, .num q => match f c with | some x => decide (q ≤ x) | none => false
  | .sattr f, .strv s => match f c with | some x => decide (s ≤ x) | none => false
  | _, _ => false

/-- Embeds `model_attr < filter_value`. -/
def dbLT (a : DbAttr) (v : FilterValue) (c : Company) : Bool :=
  match a, v with
  | .qattr f, .num q => match f c with | some x => decide (x < q) | none => false
  | .sattr f, .strv s => match f c with | some x => decide (x < s) | none => false
  | _, _ => false

/-- Embeds `model_attr <= filter_value`. -/
def dbLE (a : DbAttr) (v : FilterValue) (c : Company) : Bool :=
  match a, v with
  | .qattr f, .num q => match f c with | some x => decide (x ≤ q) | none => false
  | .sattr f, .strv s => match f c with | some x => decide (x ≤ s) | none => false
  | _, _ => false

/-- Embeds `model_attr == filter_value`. -/
def dbEQ (a : DbAttr) (v : FilterValue) (c : Company) : Bool :=
  match a, v with
  | .qattr f, .num q => match f c with | some x => decide (x = q) | none => false
  | .sattr f, .strv s => match f c with | some x => decide (x = s) | none => false
  | _, _ => false

/-- Embeds `model_attr.in_(filter_value)` (category lists). -/
def dbIN (a : DbAttr) (l : List String) (c : Company) : Bool :=
  match a with
  | .sattr f => match f c with | some x => decide (x ∈ l) | none => false
  | .qattr _ => false

/-- The operator dispatch of lines 129-141: which conditions one
operator contributes.  An unrecognized operator (including the `=`
spelling of equality) contributes nothing. -/
def opConds (a : DbAttr) (op : String) (v : FilterValue) : List (Company → Bool) :=
  if op = ">" then [dbGT a v]
  else if op = ">=" then [dbGE a v]
  else if op = "<" then [dbLT a v]
  else if op = "<=" then [dbLE a v]
  else if op = "==" then [dbEQ a v]
  else if op = "in" then
    match v with
    | .listv l => if l.isEmpty then [] else [dbIN a l]
    | _ => []
  else []

/-- Lines 125-127: `if filter_info["type"] == "percentage":
filter_value = filter_value / 100.0` (the UI supplies numbers for
percentage attributes). -/
def percentAdjust (ftype : String) (v : FilterValue) : FilterValue :=
  if ftype = "percentage" then
    match v with
    | .num q => .num (q / 100)
    | w => w
  else v

/-- The conditions a single filter dict of the loop (lines 108-141)
contributes to `active_filters`: nothing when name, op or value is
missing or the name is unknown, otherwise the implicit not-null guard
followed by the operator conditions on the (percentage-adjusted)
value. -/
def dbFilterConds (f : GenFilterSpec) : List (Company → Bool) :=
  if f.name = "" ∨ f.op = "" ∨ f.value.isNone then []
  else
    match FILTER_MAP f.name with
    | none => []
    | some fi =>
        match fi.attr with
        | none => []
        | some a =>
            attrNotNull a :: opConds a f.op (percentAdjust fi.ftype (f.value.getD (.num 0)))

/-- Embeds `db_filters = [f for f in filters if FILTER_MAP.get(...).get("source") == "db"]`. -/
def genericDbFilters (filters : List GenFilterSpec) : List GenFilterSpec :=
  filters.filter (fun f =>
    match FILTER_MAP f.name with
    | some fi => decide (fi.source = "db")
    | none => false)

/-- The full candidate predicate built by `_get_base_query`: active,
listed on an exchange whose country code is the requested market, and
passing every condition contributed by every db filter (`and_`). -/
def genericBasePred (exchanges : List (String × String)) (market : String)
    (filters : List GenFilterSpec) (c : Company) : Bool :=
  c.isactive &&
    exchanges.any (fun e => decide (e.2 = market) && decide (e.1 = c.exchange)) &&
    (((genericDbFilters filters).map dbFilterConds).flatten.all (fun cond => cond c))

/-! ### High-dividend-yield candidate query
(`HighDividendYieldScanner.run_scan`, lines 49-63) -/

/-- The dividend-yield conjunct of the query:
`Company.dividendyield > min_dividend_yield_pct` - the user-supplied
percentage, compared RAW, with no division by 100. -/
def hdyYieldCond (minYieldPct : ℚ) (c : Company) : Bool :=
  match c.dividendyield with
  | some x => decide (minYieldPct < x)
  | none => false

/-- The full candidate predicate of `HighDividendYieldScanner.run_scan`
(lines 56-63). -/
def hdyCandidatePred (exchanges : List (String × String)) (market : String)
    (minCap minYieldPct maxPayoutPct : ℚ) (c : Company) : Bool :=
  c.isactive &&
    exchanges.any (fun e => decide (e.2 = market) && decide (e.1 = c.exchange)) &&
    (match c.marketcap with | some x => decide (minCap < x) | none => false) &&
    hdyYieldCond minYieldPct c &&
    (match c.payoutratio with | some x => decide (0 < x) | none => false) &&
    (match c.payoutratio with | some x => decide (x < maxPayoutPct) | none => false)

/-- The dividend-yield comparison as C3 claims it everywhere: the
user-facing percentage divided by 100 before the comparison. -/
def hdyYieldCondClaimed (minYieldPct : ℚ) (c : Company) : Bool :=
  match c.dividendyield with
  | some x => decide (minYieldPct / 100 < x)
  | none => false

/-- A company with a 5 percent dividend yield stored as the fraction
1/20, a healthy payout ratio and a large market cap, listed on a `us`
exchange. -/
def c3Company : Company :=
  { isactive := true, exchange := "NYSE", marketcap := some 2000000000,
    dividendyield := some (1 / 20), payoutratio := some (2 / 5) }

def c3Exchanges : List (String × String) := [("NYSE", "us")]

/-- C3 counterexample: for the dividend-yield filter value 3 (three
percent), the spec-claimed comparison (divide by 100 first) accepts
`c3Company`, and so does the database filter path of the generic screener,
which does divide; but `HighDividendYieldScanner.run_scan` compares the
raw 3 against the stored fraction 1/20 and rejects the company, so the
division is NOT applied on every code path. -/
theorem hdy_percentage_not_divided :
    hdyYieldCondClaimed 3 c3Company = true ∧
    genericBasePred c3Exchanges "us"
        [{ name := "dividendyield", op := ">", value := some (.num 3) }]
        c3Company = true ∧
    hdyYieldCond 3 c3Company = false ∧
    hdyCandidatePred c3Exchanges "us" 1000000000 3 80 c3Company = false := by
  refine ⟨by decide!, by decide!, by decide!, by decide!⟩

/-- C3 amended.  The candidate-query builder of the generic screener divides
the user value of a percentage-typed attribute by 100 before the
comparison (shown here for `dividendyield`; the adjusted conditions are
the not-null guard plus the comparison at `v / 100`), but
`HighDividendYieldScanner.run_scan`, which builds its own candidate
query on the same percentage-typed attributes, compares the raw
user-supplied percentage value with no division. -/
theorem percentage_division_paths (v x : ℚ) (c : Company)
    (hx : c.dividendyield = some x) :
    ((dbFilterConds { name := "dividendyield", op := ">", value := some (.num v) }).all
        (fun cond => cond c)) = decide (v / 100 < x) ∧
    hdyYieldCond v c = decide (v < x) := by
  constructor
  · simp only [dbFilterConds, FILTER_MAP, percentAdjust, opConds]
    simp [attrNotNull, dbGT, hx]
  · simp [hdyYieldCond, hx]

theorem percentage_division_paths_witness :
    ((dbFilterConds { name := "dividendyield", op := ">", value := some (.num 3) }).all
        (fun cond => cond c3Company)) = decide ((3 : ℚ) / 100 < 1 / 20) ∧
    hdyYieldCond 3 c3Company = decide ((3 : ℚ) < 1 / 20) :=
  percentage_division_paths 3 (1 / 20) c3Company rfl

/-- C5 counterexample: a company whose market cap (5) differs from the
filter value (7) still passes a `marketcap = 7` filter, because the `=`
spelling contributes only the implicit not-null guard: the equality
condition the claim promises is silently dropped (`==` does apply
it). -/
def c5Company : Company :=
  { isactive := true, exchange := "NYSE", marketcap := some 5 }

theorem eq_op_spelling_not_applied :
    genericBasePred c3Exchanges "us"
        [{ name := "marketcap", op := "=", value := some (.num 7) }] c5Company = true ∧
    c5Company.marketcap ≠ some 7 ∧
    genericBasePred c3Exchanges "us"
        [{ name := "marketcap", op := "==", value := some (.num 7) }] c5Company = false := by
  refine ⟨by decide!, by decide!, by decide!⟩

/-- C5 amended.  Of the two equality spellings only `==` is recognized
by `_get_base_query`: it contributes the equality condition after the
implicit not-null guard, while `=` falls through the operator dispatch
and contributes nothing, leaving only the not-null guard, so the two
spellings do NOT produce the same filtering behaviour. -/
theorem equality_operator_behavior (a : DbAttr) (v : FilterValue)
    (name : String) (fi : FilterInfo) (hkn : FILTER_MAP name = some fi)
    (hne : name ≠ "") (hattr : fi.attr = some a)
    (hty : fi.ftype ≠ "percentage") :
    dbFilterConds { name := name, op := "==", value := some v } =
      [attrNotNull a, dbEQ a v] ∧
    dbFilterConds { name := name, op := "=", value := some v } =
      [attrNotNull a] := by
  constructor
  · simp only [dbFilterConds, hkn, hattr, percentAdjust, opConds]
    simp [hne, hty]
  · simp only [dbFilterConds, hkn, hattr, percentAdjust, opConds]
    simp [hne, hty]

theorem equality_operator_behavior_witness :
    dbFilterConds { name := "marketcap", op := "==", value := some (.num 7) } =
      [attrNotNull (.qattr (fun c => c.marketcap)),
        dbEQ (.qattr (fun c => c.marketcap)) (.num 7)] ∧
    dbFilterConds { name := "marketcap", op := "=", value := some (.num 7) } =
      [attrNotNull (.qattr (fun c => c.marketcap))] :=
  equality_operator_behavior (.qattr (fun c => c.marketcap)) (.num 7)
    "marketcap" ⟨"db", "numeric", some (.qattr (fun c => c.marketcap))⟩
    (by rfl) (by decide) (by rfl) (by decide)

/-! ### On-the-fly indicators and `_apply_tech_filter`
(`GenericScreener._apply_tech_filter`, lines 171-228)

talib output series have the length of the input with NaN until the
indicator lookback is filled.  EMA is seeded with the SMA of the
first period; RSI uses Wilder smoothing; MACD is fast EMA minus slow
EMA with an EMA signal line over its defined suffix; STOCH smooths the
raw percent-K with two SMAs.  Exact values of these models are not load
bearing for any claim below; the Bollinger band values involve a float
square root, which is irrational, so the band computation is an
explicit function parameter and the theorems hold for every choice of
it. -/

/-- Full SMA series (NaN until the window fills). -/
def smaSeries (p : ℕ) (xs : List ℚ) : List (Option ℚ) :=
  (List.range xs.length).map (fun k =>
    if 1 ≤ p ∧ p ≤ k + 1 then some (((xs.drop (k + 1 - p)).take p).sum / p)
    else none)

/-- EMA recursion `v = a * x + (1 - a) * prev`. -/
def emaFrom (a : ℚ) (acc : ℚ) : List ℚ → List ℚ
  | [] => []
  | x :: t =>
      let v := a * x + (1 - a) * acc
      v :: emaFrom a v t

/-- Embeds `talib.EMA`: seeded with the SMA of the first `p` values, smoothing
factor `2 / (p + 1)`. -/
def emaSeries (p : ℕ) (xs : List ℚ) : List (Option ℚ) :=
  if 1 ≤ p ∧ p ≤ xs.length then
    let seed := (xs.take p).sum / p
    List.replicate (p - 1) (none : Option ℚ) ++
      (some seed :: (emaFrom (2 / ((p : ℚ) + 1)) seed (xs.drop p)).map some)
  else xs.map (fun _ => none)

/-- Embeds `series.iloc[-i]` on an indicator series (NaN when out of range). -/
def backVal (s : List (Option ℚ)) (i : ℕ) : Option ℚ :=
  (ilocNeg s i).getD none

/-- Embeds `talib.RSI(...).iloc[-1]` (Wilder smoothing; the all-flat case uses
the talib `100 * avgGain / (avgGain + avgLoss)` form with 0 on a zero
denominator). -/
def rsiLast (p : ℕ) (xs : List ℚ) : Option ℚ :=
  if 1 ≤ p ∧ p + 1 ≤ xs.length then
    let diffs := List.zipWith (fun a b => b - a) xs xs.tail
    let gains := diffs.map (fun d => if 0 < d then d else 0)
    let losses := diffs.map (fun d => if d < 0 then -d else 0)
    let avgG := (gains.drop p).foldl
      (fun acc g => (acc * ((p : ℚ) - 1) + g) / p) ((gains.take p).sum / p)
    let avgL := (losses.drop p).foldl
      (fun acc g => (acc * ((p : ℚ) - 1) + g) / p) ((losses.take p).sum / p)
    some (if avgG + avgL = 0 then 0 else 100 * avgG / (avgG + avgL))
  else none

/-- Number of leading NaNs of an indicator series. -/
def leadNones (s : List (Option ℚ)) : ℕ := (s.takeWhile Option.isNone).length

/-- The defined suffix of an indicator series. -/
def definedVals (s : List (Option ℚ)) : List ℚ :=
  (s.dropWhile Option.isNone).filterMap id

/-- Apply an SMA over the defined suffix of a series, keeping the NaN
prefix aligned. -/
def smaOnSeries (p : ℕ) (s : List (Option ℚ)) : List (Option ℚ) :=
  List.replicate (leadNones s) (none : Option ℚ) ++ smaSeries p (definedVals s)

/-- Apply an EMA over the defined suffix of a series. -/
def emaOnSeries (p : ℕ) (s : List (Option ℚ)) : List (Option ℚ) :=
  List.replicate (leadNones s) (none : Option ℚ) ++ emaSeries p (definedVals s)

/-- Embeds `talib.MACD`: the MACD line and its signal line. -/
def macdSeries (fast slow signal : ℕ) (xs : List ℚ) :
    List (Option ℚ) × List (Option ℚ) :=
  let ml := List.zipWith
    (fun a b => match a, b with
      | some u, some v => some (u - v)
      | _, _ => none)
    (emaSeries fast xs) (emaSeries slow xs)
  (ml, emaOnSeries signal ml)

/-- Raw percent-K of `talib.STOCH`. -/
def stochFastK (p : ℕ) (highs lows closes : List ℚ) : List (Option ℚ) :=
  (List.range closes.length).map (fun k =>
    if 1 ≤ p ∧ p ≤ k + 1 then
      let hh := (((highs.drop (k + 1 - p)).take p).max?).getD 0
      let ll := (((lows.drop (k + 1 - p)).take p).min?).getD 0
      some (if hh = ll then 0 else (closes.getD k 0 - ll) / (hh - ll) * 100)
    else none)

/-- Embeds `talib.STOCH` slow percent-K and percent-D lines. -/
def stochSeries (fastk slowk slowd : ℕ) (highs lows closes : List ℚ) :
    List (Option ℚ) × List (Option ℚ) :=
  let sk := smaOnSeries slowk (stochFastK fastk highs lows closes)
  (sk, smaOnSeries slowd sk)

/-- A Bollinger band computation: closes, period, up and down deviation
multipliers to the upper and lower band values at the last bar. -/
abbrev BandsFn := List ℚ → ℕ → ℚ → ℚ → Option ℚ × Option ℚ

/-- Python `eval(f"a {op} b")` on two floats: defined exactly for the
comparison operator texts; any other operator text raises. -/
def pyEvalCmp (op : String) (a b : ℚ) : Option Bool :=
  if op = ">" then some (decide (b < a))
  else if op = ">=" then some (decide (b ≤ a))
  else if op = "<" then some (decide (a < b))
  else if op = "<=" then some (decide (a ≤ b))
  else if op = "==" then some (decide (a = b))
  else if op = "!=" then some (decide (a ≠ b))
  else none

/-- Embeds `GenericScreener._apply_tech_filter` (lines 171-228).  `none` is a
raised exception, `some b` a returned boolean.  A name block whose
operator tests all fail falls through past the remaining name blocks
(none of which can match the same name) to the final `return False`,
which the per-block final else mirrors. -/
def applyTechFilter (bands : BandsFn) (group : List Bar)
    (f : GenFilterSpec) : Option Bool :=
  let params : TechParams :=
    match f.value with
    | some (.mapping m) => m
    | _ => {}
  let closes := group.map Bar.close
  if f.name = "sma" then
    let period := params.period.getD 20
    if group.length < period then some false
    else
      match ilocNeg closes 1, smaAtBack period closes 1 with
      | some price, some s => pyEvalCmp f.op price s
      | _, _ => some false
  else if f.name = "ema" then
    let period := params.period.getD 20
    if group.length < period then some false
    else
      match ilocNeg closes 1, backVal (emaSeries period closes) 1 with
      | some price, some e => pyEvalCmp f.op price e
      | _, _ => some false
  else if f.name = "rsi" then
    let period := params.period.getD 14
    if group.length < period + 1 then some false
    else
      match rsiLast period closes, params.value with
      | some r, some v => pyEvalCmp f.op r v
      | _, _ => some false
  else if f.name = "macd" then
    let ms := macdSeries (params.fastperiod.getD 12) (params.slowperiod.getD 26)
      (params.signalperiod.getD 9) closes
    if ms.1.length < 2 ∨ backVal ms.1 1 = none ∨ backVal ms.2 1 = none then
      some false
    else if f.op = "cross_above" then
      some (qgt (backVal ms.1 1) (backVal ms.2 1) &&
        qle (backVal ms.1 2) (backVal ms.2 2))
    else if f.op = "cross_below" then
      some (qlt (backVal ms.1 1) (backVal ms.2 1) &&
        qge (backVal ms.1 2) (backVal ms.2 2))
    else some false
  else if f.name = "stoch" then
    let ss := stochSeries (params.fastk_period.getD 14) (params.slowk_period.getD 3)
      (params.slowd_period.getD 3) (group.map Bar.high) (group.map Bar.low) closes
    if ss.1.length < 2 ∨ backVal ss.1 1 = none ∨ backVal ss.2 1 = none then
      some false
    else if f.op = "cross_above" then
      some (qgt (backVal ss.1 1) (backVal ss.2 1) &&
        qle (backVal ss.1 2) (backVal ss.2 2))
    else if f.op = "cross_below" then
      some (qlt (backVal ss.1 1) (backVal ss.2 1) &&
        qge (backVal ss.1 2) (backVal ss.2 2))
    else if f.op = "above" then
      match params.value with
      | some v => some (qgt (backVal ss.1 1) (some v))
      | none => none
    else if f.op = "below" then
      match params.value with
      | some v => some (qlt (backVal ss.1 1) (some v))
      | none => none
    else some false
  else if f.name = "bbands" then
    let bu := bands closes (params.period.getD 20) (params.nbdevup.getD 2)
      (params.nbdevdn.getD 2)
    if group.length < 1 ∨ bu.1 = none ∨ bu.2 = none then some false
    else if f.op = "cross_above_upper" then some (qgt (ilocNeg closes 1) bu.1)
    else if f.op = "cross_below_lower" then some (qlt (ilocNeg closes 1) bu.2)
    else some false
  else some false

/-- The technical-filter loop of `GenericScreener.scan_company`
(lines 162-164): every tech filter must pass; the first failure rejects
(fail closed) and a raised exception propagates. -/
def applyTechFilters (bands : BandsFn) (group : List Bar) :
    List GenFilterSpec → Option Bool
  | [] => some true
  | f :: t =>
      match applyTechFilter bands group f with
      | none => none
      | some false => some false
      | some true => applyTechFilters bands group t

/-- Embeds `GenericScreener.scan_company` (lines 158-169) in state-passing
form: the tech-source members of `self.params["filters"]` are checked,
and on a pass the bookkeeping keys `id` and `isactive` are deleted from
`company_info` IN PLACE and the same mutated dict is returned.  First
component: `none` = exception, `some none` = returned `None`,
`some (some r)` = match `r`.  Second component: the state of
`company_info` after the call (the model does not thread the bar frame
because nothing in the method writes to `group`). -/
def genericScanCompany (bands : BandsFn) (filters : List GenFilterSpec)
    (group : List Bar) (info : Snapshot) : Option (Option Snapshot) × Snapshot :=
  let tfs := filters.filter (fun f =>
    match FILTER_MAP f.name with
    | some fi => decide (fi.source = "tech")
    | none => false)
  match applyTechFilters bands group tfs with
  | none => (none, info)
  | some false => (some none, info)
  | some true =>
      let cleaned := eraseKey (eraseKey info "id") "isactive"
      (some (some cleaned), cleaned)

theorem lookupKey_eraseKey_ne (s : Snapshot) (k k2 : String) (h : k ≠ k2) :
    lookupKey (eraseKey s k2) k = lookupKey s k := by
  induction s with
  | nil => rfl
  | cons p t ih =>
      by_cases hp : p.1 = k2
      · rw [show eraseKey (p :: t) k2 = eraseKey t k2 by simp [eraseKey, hp], ih]
        have : ¬ p.1 = k := by rw [hp]; exact fun hk => h hk.symm
        cases p
        simp_all [lookupKey]
      · rw [show eraseKey (p :: t) k2 = p :: eraseKey t k2 by simp [eraseKey, hp]]
        cases p with
        | mk k0 v0 =>
            by_cases hk : k0 = k
            · simp [lookupKey, hk]
            · simp [lookupKey, hk, ih]

/-- A trivial band computation used to instantiate `BandsFn` in
concrete statements. -/
def noBands : BandsFn := fun _ _ _ _ => (none, none)

/-- C2 counterexample: `GenericScreener.scan_company` mutates its
snapshot input.  With no filters configured, the call on a snapshot
holding the key `id` returns a match, and afterwards the snapshot has
lost that key: it is no longer the dict that was passed in. -/
theorem generic_scan_mutates_snapshot :
    (genericScanCompany noBands [] [] [("id", Val.num 1)]).2 ≠
        [("id", Val.num 1)] ∧
      (genericScanCompany noBands [] [] [("id", Val.num 1)]).1 =
        some (some []) := by
  refine ⟨by decide, by decide⟩

/-- C2 amended.  `scan_company` is deterministic (a function of its
inputs), and the bar frame is never written, but the snapshot IS
mutated on a match: the keys `id` and `isactive` are deleted from the
dict in place, and the returned record is that same mutated dict; on a
non-match or an exception the snapshot is left unchanged. -/
theorem generic_scan_mutation_spec (bands : BandsFn)
    (filters : List GenFilterSpec) (group : List Bar) (info : Snapshot) :
    ((genericScanCompany bands filters group info).1 = none ∨
        (genericScanCompany bands filters group info).1 = some none →
      (genericScanCompany bands filters group info).2 = info) ∧
    (∀ r, (genericScanCompany bands filters group info).1 = some (some r) →
      (genericScanCompany bands filters group info).2 = r ∧
      r = eraseKey (eraseKey info "id") "isactive" ∧
      lookupKey r "id" = none ∧ lookupKey r "isactive" = none) := by
  constructor
  · intro h
    unfold genericScanCompany at *
    rcases hat : applyTechFilters bands group
        (filters.filter (fun f =>
          match FILTER_MAP f.name with
          | some fi => decide (fi.source = "tech")
          | none => false)) with _ | b
    · simp [hat]
    · cases b
      · simp [hat]
      · simp only [hat] at h
        rcases h with h | h <;> cases h
  · intro r hr
    unfold genericScanCompany at *
    rcases hat : applyTechFilters bands group
        (filters.filter (fun f =>
          match FILTER_MAP f.name with
          | some fi => decide (fi.source = "tech")
          | none => false)) with _ | b
    · simp [hat] at hr
    · cases b
      · simp [hat] at hr
      · simp only [hat, Option.some.injEq] at hr
        subst hr
        refine ⟨by simp [hat], rfl, ?_, ?_⟩
        · rw [lookupKey_eraseKey_ne _ _ _ (by decide)]
          exact lookupKey_eraseKey _ _
        · exact lookupKey_eraseKey _ _

theorem generic_scan_mutation_spec_witness :
    (genericScanCompany noBands [] [] [("id", Val.num 1)]).2 = [] ∧
      lookupKey ([] : Snapshot) "id" = none := by
  have h := (generic_scan_mutation_spec noBands [] [] [("id", Val.num 1)]).2
    [] (by decide)
  exact ⟨h.1, h.2.2.1⟩

/-- A two-bar group with valid closes, long enough for a period-2 SMA. -/
def c10Group : List Bar :=
  [ { date := 0, open_ := 10, high := 11, low := 9, close := 10, adjclose := 10,
      volume := 1000, split_coefficient := 1 },
    { date := 1, open_ := 12, high := 13, low := 11, close := 12, adjclose := 12,
      volume := 1000, split_coefficient := 1 } ]

/-- C10 counterexample: an operator that is not a Python comparison
operator on an eval-dispatched indicator does NOT return false - the
`eval` of `"price above sma"` raises, so `_apply_tech_filter` raises
instead of failing closed.  (The claim is right for the explicitly
dispatched indicators; see the amended theorem.) -/
theorem sma_unknown_op_raises :
    applyTechFilter noBands c10Group
        { name := "sma", op := "above",
          value := some (.mapping { period := some 2 }) } = none ∧
      applyTechFilter noBands c10Group
          { name := "sma", op := "above",
            value := some (.mapping { period := some 2 }) } ≠ some false := by
  refine ⟨by decide!, by decide!⟩

/-- C10 amended.  For the indicators dispatched through explicit
operator tests, an unsupported operator falls through every test and
`_apply_tech_filter` returns false (fail closed), whatever the bar
group or the band computation: an indicator name with no handler block
at all (`adx`, which FILTER_MAP marks as an on-the-fly indicator),
`macd` with an operator other than `cross_above`/`cross_below`,
`stoch` with an operator other than
`cross_above`/`cross_below`/`above`/`below`, and `bbands` with an
operator other than `cross_above_upper`/`cross_below_lower`.  For the
eval-dispatched indicators (`sma`, `ema`, `rsi`), however, an operator
that is not a Python comparison operator raises instead (see the
counterexample), so the fail-closed property does not extend to
them. -/
theorem tech_filter_unsupported_op (bands : BandsFn) (group : List Bar)
    (f : GenFilterSpec) :
    (f.name = "adx" → applyTechFilter bands group f = some false) ∧
    (f.name = "macd" → f.op ≠ "cross_above" → f.op ≠ "cross_below" →
      applyTechFilter bands group f = some false) ∧
    (f.name = "stoch" → f.op ≠ "cross_above" → f.op ≠ "cross_below" →
      f.op ≠ "above" → f.op ≠ "below" →
      applyTechFilter bands group f = some false) ∧
    (f.name = "bbands" → f.op ≠ "cross_above_upper" →
      f.op ≠ "cross_below_lower" →
      applyTechFilter bands group f = some false) := by
  refine ⟨?_, ?_, ?_, ?_⟩
  · intro hn
    simp [applyTechFilter, hn]
  · intro hn h1 h2
    simp only [applyTechFilter, hn]
    simp [h1, h2]
  · intro hn h1 h2 h3 h4
    simp only [applyTechFilter, hn]
    simp [h1, h2, h3, h4]
  · intro hn h1 h2
    simp only [applyTechFilter, hn]
    simp [h1, h2]

theorem tech_filter_unsupported_op_witness :
    applyTechFilter noBands c10Group
        { name := "adx", op := ">", value := none } = some false ∧
      applyTechFilter noBands c10Group
        { name := "macd", op := "above", value := none } = some false := by
  constructor
  · exact (tech_filter_unsupported_op noBands c10Group
      { name := "adx", op := ">", value := none }).1 rfl
  · exact (tech_filter_unsupported_op noBands c10Group
      { name := "macd", op := "above", value := none }).2.1 rfl
      (by decide) (by decide)
